import Mathlib

/-!
Verification of the safe calculator evaluator (`Calculator.py`).

The evaluator (`class SafeEval`) walks a restricted Python AST, keeping a
mutable mapping `self.vars` of variable bindings, dispatching each node kind
against fixed whitelists of operators (`_BIN_OPS`, `_UNARY_OPS`, `_CMP_OPS`),
functions (`_ALLOWED_FUNCS`) and constants (`_ALLOWED_CONSTS`).

Modelling choices:
* Python numbers are modelled as `vInt : Int` (arbitrary-precision ints) and
  `vFloat : ℚ` (an idealised rational stand-in for binary64 floats).  Integer
  arithmetic, rational float arithmetic, floor-division, Python-style modulo
  and integral powers are modelled exactly; the numeric values of the
  transcendental math functions (sin, cos, tan, log, log10, exp and
  non-integral powers) lie outside the rational model and are represented by
  a fixed placeholder — only their arity and domain-check behaviour is
  modelled, which is all the stated properties depend on.
* The evaluator state `EvState` carries `vars` (the `self.vars` dict) and
  `calls`, a trace of the names of whitelisted functions actually invoked
  (one entry appended exactly where the source executes
  `_ALLOWED_FUNCS[func_name](*args)`).  The trace makes "the function is
  never invoked" and short-circuiting observable.
* Python exceptions raised during evaluation are modelled with `Except`;
  the error type distinguishes the exception class raised by the source
  (`ValueError` for the evaluator's own checks, `ZeroDivisionError` — a
  subclass of `ArithmeticError` — and `TypeError` from native operations).
-/

namespace SafeCalc

/-- Python values reachable in this calculator: ints, floats, booleans and
tuples (`_eval_expr` can produce tuples via `ast.Tuple`). -/
inductive Value where
| vInt (n : Int)
| vFloat (q : ℚ)
| vBool (b : Bool)
| vTuple (elts : List Value)
deriving Repr

/-- Evaluation-time exception classes raised by the source.  `zeroDivisionError`
models Python's `ZeroDivisionError`, a subclass of `ArithmeticError`. -/
inductive EvalError where
| valueError (msg : String)
| zeroDivisionError (msg : String)
| typeError (msg : String)
deriving Repr, DecidableEq

/-- `ZeroDivisionError` is the only `ArithmeticError` subclass that can arise. -/
def EvalError.isArithmeticError : EvalError → Bool
| .zeroDivisionError _ => true
| _ => false

/-- A Python number as seen by the arithmetic operators: its rational value
and whether it is a float (booleans participate in arithmetic as 0/1 ints). -/
structure PyNum where
  q : ℚ
  isFloat : Bool
deriving Repr, DecidableEq

/-- Numeric view of a value (`int`, `float` and `bool` are all numbers to
Python's arithmetic; tuples are not). -/
def Value.asNum : Value → Option PyNum
| .vInt n => some ⟨(n : ℚ), false⟩
| .vFloat q => some ⟨q, true⟩
| .vBool b => some ⟨if b then 1 else 0, false⟩
| .vTuple _ => none

/-- Is this value an int-like object (int or bool), and with which value?
Python treats bools as the ints 0 and 1. -/
def Value.intLike : Value → Option Int
| .vInt n => some n
| .vBool b => some (if b then 1 else 0)
| _ => none

/-- Rebuild a value from a rational result: float results stay floats, int
results (denominator 1 in every use) become ints. -/
def mkNum (q : ℚ) (isFloat : Bool) : Value :=
  if isFloat then .vFloat q else .vInt q.num

/-- Both operands int-like (int or bool)?  Python's arithmetic then works in
exact arbitrary-precision integers. -/
def intPair (a b : Value) : Option (Int × Int) :=
  match a.intLike, b.intLike with
  | some m, some n => some (m, n)
  | _, _ => none

/-- Rational view of a non-tuple value, defaulting tuples to 0 (the
comparison code only applies it after ruling tuples out). -/
def Value.toRatD : Value → ℚ
| .vInt n => (n : ℚ)
| .vFloat q => q
| .vBool b => if b then 1 else 0
| .vTuple _ => 0

/-- Python truthiness: zero numbers, `False` and the empty tuple are falsy. -/
def Value.truthy : Value → Bool
| .vInt n => n != 0
| .vFloat q => q != 0
| .vBool b => b
| .vTuple elts => !elts.isEmpty


mutual
/-- Python `==` on calculator values: numbers compare by numeric value
(so `1 == 1.0 == True`), tuples compare elementwise, and a tuple is never
equal to a number.  `==` never raises. -/
def pyEq : Value → Value → Bool
| .vTuple xs, .vTuple ys => pyEqList xs ys
| .vTuple _, _ => false
| _, .vTuple _ => false
| a, b => a.toRatD == b.toRatD

def pyEqList : List Value → List Value → Bool
| [], [] => true
| x :: xs, y :: ys => pyEq x y && pyEqList xs ys
| _, _ => false
end

/-- Message for an ordering comparison applied to incompatible values. -/
def cmpTypeError : EvalError :=
  .typeError "comparison not supported between instances of incompatible types"

mutual
/-- Python `<`: numeric for numbers, lexicographic for tuple vs tuple
(CPython applies `<` only at the first `==`-unequal position, comparing
lengths when one tuple is a strict leading segment of the other), and a
`TypeError` between a tuple and a number. -/
def pyLt : Value → Value → Except EvalError Bool
| .vTuple xs, .vTuple ys => pyLtList xs ys
| .vTuple _, _ => .error cmpTypeError
| _, .vTuple _ => .error cmpTypeError
| a, b => .ok (decide (a.toRatD < b.toRatD))

def pyLtList : List Value → List Value → Except EvalError Bool
| [], [] => .ok false
| [], _ :: _ => .ok true
| _ :: _, [] => .ok false
| x :: xs, y :: ys => if pyEq x y then pyLtList xs ys else pyLt x y
end

mutual
/-- Python `<=`, following the same first-unequal-position algorithm. -/
def pyLe : Value → Value → Except EvalError Bool
| .vTuple xs, .vTuple ys => pyLeList xs ys
| .vTuple _, _ => .error cmpTypeError
| _, .vTuple _ => .error cmpTypeError
| a, b => .ok (decide (a.toRatD ≤ b.toRatD))

def pyLeList : List Value → List Value → Except EvalError Bool
| [], [] => .ok true
| [], _ :: _ => .ok true
| _ :: _, [] => .ok false
| x :: xs, y :: ys => if pyEq x y then pyLeList xs ys else pyLe x y
end

/-- Python `>` coincides with flipped `<` on numbers and tuples. -/
def pyGt (a b : Value) : Except EvalError Bool := pyLt b a

/-- Python `>=` coincides with flipped `<=`. -/
def pyGe (a b : Value) : Except EvalError Bool := pyLe b a

/-- Message for a binary arithmetic operator applied to incompatible values. -/
def binTypeError : EvalError :=
  .typeError "unsupported operand type(s) for binary operator"

/-- `operator.add`: exact int addition for int-like operands, float (here:
rational) addition when a float is involved; tuple + tuple concatenates;
anything else is a `TypeError`. -/
def pyAdd (a b : Value) : Except EvalError Value :=
  match intPair a b with
  | some (m, n) => .ok (.vInt (m + n))
  | none =>
    match a.asNum, b.asNum with
    | some x, some y => .ok (.vFloat (x.q + y.q))
    | _, _ =>
      match a, b with
      | .vTuple xs, .vTuple ys => .ok (.vTuple (xs ++ ys))
      | _, _ => .error binTypeError

/-- `operator.sub`: numeric only. -/
def pySub (a b : Value) : Except EvalError Value :=
  match intPair a b with
  | some (m, n) => .ok (.vInt (m - n))
  | none =>
    match a.asNum, b.asNum with
    | some x, some y => .ok (.vFloat (x.q - y.q))
    | _, _ => .error binTypeError

/-- `operator.mul`: numeric multiplication; `tuple * int` (either order)
repeats the tuple, with non-positive counts giving the empty tuple. -/
def pyMul (a b : Value) : Except EvalError Value :=
  match intPair a b with
  | some (m, n) => .ok (.vInt (m * n))
  | none =>
    match a.asNum, b.asNum with
    | some x, some y => .ok (.vFloat (x.q * y.q))
    | _, _ =>
      match a, b with
      | .vTuple xs, b =>
        match b.intLike with
        | some n => .ok (.vTuple (List.flatten (List.replicate n.toNat xs)))
        | none => .error binTypeError
      | a, .vTuple ys =>
        match a.intLike with
        | some n => .ok (.vTuple (List.flatten (List.replicate n.toNat ys)))
        | none => .error binTypeError
      | _, _ => .error binTypeError

/-- `operator.truediv`: always a float result; a zero divisor raises
`ZeroDivisionError` (a subclass of `ArithmeticError`). -/
def pyDiv (a b : Value) : Except EvalError Value :=
  match intPair a b with
  | some (m, n) =>
    if n = 0 then .error (.zeroDivisionError "division by zero")
    else .ok (.vFloat ((m : ℚ) / (n : ℚ)))
  | none =>
    match a.asNum, b.asNum with
    | some x, some y =>
      if y.q = 0 then .error (.zeroDivisionError "float division by zero")
      else .ok (.vFloat (x.q / y.q))
    | _, _ => .error binTypeError

/-- `operator.floordiv`: floor division.  Int operands give an int
(`Int.fdiv` floors like Python's `//`); a float operand gives the floored
quotient as a float; zero divisor raises `ZeroDivisionError`. -/
def pyFloorDiv (a b : Value) : Except EvalError Value :=
  match intPair a b with
  | some (m, n) =>
    if n = 0 then .error (.zeroDivisionError "integer division or modulo by zero")
    else .ok (.vInt (Int.fdiv m n))
  | none =>
    match a.asNum, b.asNum with
    | some x, some y =>
      if y.q = 0 then .error (.zeroDivisionError "float floor division by zero")
      else .ok (.vFloat ((⌊x.q / y.q⌋ : Int) : ℚ))
    | _, _ => .error binTypeError

/-- `operator.mod`: Python modulo (the result takes the divisor's sign;
`Int.fmod` for ints, `a - b * ⌊a / b⌋` for floats); a zero divisor raises
`ZeroDivisionError`. -/
def pyMod (a b : Value) : Except EvalError Value :=
  match intPair a b with
  | some (m, n) =>
    if n = 0 then .error (.zeroDivisionError "integer division or modulo by zero")
    else .ok (.vInt (Int.fmod m n))
  | none =>
    match a.asNum, b.asNum with
    | some x, some y =>
      if y.q = 0 then .error (.zeroDivisionError "float modulo")
      else .ok (.vFloat (x.q - y.q * (⌊x.q / y.q⌋ : Int)))
    | _, _ => .error binTypeError

/-- Placeholder for float powers with a non-integral exponent: such results
(including CPython's complex results for negative bases) are irrational and
lie outside the rational float model; no stated property depends on them. -/
def powFloatApprox (_base _exp : ℚ) : ℚ := 0

/-- `operator.pow` / builtin `pow`: int base and exponent `e ≥ 0` give an
exact int power and `e < 0` a float (with `0 ** e` raising
`ZeroDivisionError`); a float operand with an integral exponent gives the
exact float power; non-integral exponents fall to the placeholder. -/
def pyPow (a b : Value) : Except EvalError Value :=
  match intPair a b with
  | some (m, n) =>
    if 0 ≤ n then .ok (.vInt (m ^ n.toNat))
    else if m = 0 then
      .error (.zeroDivisionError "0.0 cannot be raised to a negative power")
    else .ok (.vFloat ((m : ℚ) ^ n))
  | none =>
    match a.asNum, b.asNum with
    | some x, some y =>
      if y.q.den = 1 then
        if 0 ≤ y.q.num then .ok (.vFloat (x.q ^ y.q.num.toNat))
        else if x.q = 0 then
          .error (.zeroDivisionError "0.0 cannot be raised to a negative power")
        else .ok (.vFloat (x.q ^ y.q.num))
      else .ok (.vFloat (powFloatApprox x.q y.q))
    | _, _ => .error binTypeError

/-- `operator.pos` (unary `+`): numeric identity (bools become ints). -/
def pyPos (a : Value) : Except EvalError Value :=
  match a.intLike with
  | some m => .ok (.vInt m)
  | none =>
    match a.asNum with
    | some x => .ok (.vFloat x.q)
    | none => .error (.typeError "bad operand type for unary +")

/-- `operator.neg` (unary `-`): numeric negation. -/
def pyNeg (a : Value) : Except EvalError Value :=
  match a.intLike with
  | some m => .ok (.vInt (-m))
  | none =>
    match a.asNum with
    | some x => .ok (.vFloat (-x.q))
    | none => .error (.typeError "bad operand type for unary -")

/-- Placeholder for the values of the transcendental math functions (sin,
cos, tan, log, log10, exp): irrational, outside the rational float model.
Only the arity and domain checks of these functions are modelled. -/
def floatTransc (_tag : String) (_x : ℚ) : ℚ := 0

/-- `math.sqrt` on a rational: exact on perfect squares (e.g. `sqrt(16) = 4`),
a floor-based approximation otherwise. -/
def ratSqrt (q : ℚ) : ℚ := ((Int.sqrt q.num : Int) : ℚ) / ((Nat.sqrt q.den : ℕ) : ℚ)

/-- Round-half-to-even (banker's rounding), as Python's builtin `round`. -/
def roundHalfEven (q : ℚ) : Int :=
  let f : Int := ⌊q⌋
  let r : ℚ := q - f
  if r < 1/2 then f
  else if 1/2 < r then f + 1
  else if f % 2 = 0 then f else f + 1

/-- Builtin `abs`: numeric absolute value; `TypeError` on a tuple. -/
def fnAbs : List Value → Except EvalError Value
| [v] =>
  match v.intLike with
  | some m => .ok (.vInt |m|)
  | none =>
    match v.asNum with
    | some x => .ok (.vFloat |x.q|)
    | none => .error (.typeError "bad operand type for abs()")
| _ => .error (.typeError "abs() takes exactly one argument")

/-- Builtin `round`: one numeric argument rounds half-to-even to an int;
with an int `ndigits` it rounds at that decimal place, keeping the input's
int/float kind (idealised decimal rounding of the rational float model). -/
def fnRound : List Value → Except EvalError Value
| [v] =>
  match v.asNum with
  | some x => .ok (.vInt (roundHalfEven x.q))
  | none => .error (.typeError "type cannot be rounded")
| [v, d] =>
  match v.asNum, d.intLike with
  | some x, some n =>
    let scale : ℚ := (10 : ℚ) ^ n
    .ok (mkNum (((roundHalfEven (x.q * scale) : Int) : ℚ) / scale) x.isFloat)
  | some _, none => .error (.typeError "ndigits must be an integer")
  | none, _ => .error (.typeError "type cannot be rounded")
| _ => .error (.typeError "round() takes at most 2 arguments")

/-- `math.sqrt`: one numeric argument, `ValueError: math domain error` for a
negative one; otherwise a float. -/
def fnSqrt : List Value → Except EvalError Value
| [v] =>
  match v.asNum with
  | some x =>
    if x.q < 0 then .error (.valueError "math domain error")
    else .ok (.vFloat (ratSqrt x.q))
  | none => .error (.typeError "must be real number")
| _ => .error (.typeError "sqrt() takes exactly one argument")

/-- A total one-argument `math` function (`sin`, `cos`, `tan`, `exp`):
one numeric argument, float result via the transcendental placeholder. -/
def fnTransc (tag : String) : List Value → Except EvalError Value
| [v] =>
  match v.asNum with
  | some x => .ok (.vFloat (floatTransc tag x.q))
  | none => .error (.typeError "must be real number")
| _ => .error (.typeError "function takes exactly one argument")

/-- `math.log`: `ValueError: math domain error` on a non-positive argument
(or base); `log(x, 1)` divides by `log(1) = 0`, a `ZeroDivisionError`. -/
def fnLog : List Value → Except EvalError Value
| [v] =>
  match v.asNum with
  | some x =>
    if x.q ≤ 0 then .error (.valueError "math domain error")
    else .ok (.vFloat (floatTransc "log" x.q))
  | none => .error (.typeError "must be real number")
| [v, b] =>
  match v.asNum, b.asNum with
  | some x, some y =>
    if x.q ≤ 0 ∨ y.q ≤ 0 then .error (.valueError "math domain error")
    else if y.q = 1 then .error (.zeroDivisionError "float division by zero")
    else .ok (.vFloat (floatTransc "log2" (x.q / y.q)))
  | _, _ => .error (.typeError "must be real number")
| _ => .error (.typeError "log() takes at most 2 arguments")

/-- `math.log10`: `ValueError: math domain error` on a non-positive argument. -/
def fnLog10 : List Value → Except EvalError Value
| [v] =>
  match v.asNum with
  | some x =>
    if x.q ≤ 0 then .error (.valueError "math domain error")
    else .ok (.vFloat (floatTransc "log10" x.q))
  | none => .error (.typeError "must be real number")
| _ => .error (.typeError "log10() takes exactly one argument")

/-- Builtin `pow` with two arguments is exactly `**`.  (CPython also has a
three-argument modular form, which this calculator's whitelist exposes but
no stated property touches; other arities are a `TypeError` as in CPython.) -/
def fnPow : List Value → Except EvalError Value
| [a, b] => pyPow a b
| _ => .error (.typeError "pow() requires 2 arguments")

/-- Fold of builtin `max`: keep the current maximum, replacing it only when
the next item is strictly greater (`>`), so the first of equals wins. -/
def maxFold : Value → List Value → Except EvalError Value
| cur, [] => .ok cur
| cur, v :: rest =>
  match pyGt v cur with
  | .error e => .error e
  | .ok true => maxFold v rest
  | .ok false => maxFold cur rest

/-- Fold of builtin `min`, symmetric with `maxFold` using `<`. -/
def minFold : Value → List Value → Except EvalError Value
| cur, [] => .ok cur
| cur, v :: rest =>
  match pyLt v cur with
  | .error e => .error e
  | .ok true => minFold v rest
  | .ok false => minFold cur rest

/-- Builtin `max`: with one argument it iterates it (a tuple; an empty tuple
is a `ValueError`, a non-iterable a `TypeError`); with several arguments it
folds over them. -/
def fnMax : List Value → Except EvalError Value
| [] => .error (.typeError "max expected at least 1 argument, got 0")
| [.vTuple []] => .error (.valueError "max() arg is an empty sequence")
| [.vTuple (x :: xs)] => maxFold x xs
| [_] => .error (.typeError "object is not iterable")
| a :: rest => maxFold a rest

/-- Builtin `min`, symmetric with `fnMax`. -/
def fnMin : List Value → Except EvalError Value
| [] => .error (.typeError "min expected at least 1 argument, got 0")
| [.vTuple []] => .error (.valueError "min() arg is an empty sequence")
| [.vTuple (x :: xs)] => minFold x xs
| [_] => .error (.typeError "object is not iterable")
| a :: rest => minFold a rest

/-- The `_ALLOWED_FUNCS` whitelist: the only callable names, each mapped to
its native function.  Every other name is absent. -/
def ALLOWED_FUNCS : String → Option (List Value → Except EvalError Value)
| "abs" => some fnAbs
| "round" => some fnRound
| "sqrt" => some fnSqrt
| "sin" => some (fnTransc "sin")
| "cos" => some (fnTransc "cos")
| "tan" => some (fnTransc "tan")
| "log" => some fnLog
| "log10" => some fnLog10
| "exp" => some (fnTransc "exp")
| "pow" => some fnPow
| "max" => some fnMax
| "min" => some fnMin
| _ => none

/-- Decimal stand-ins for the binary64 constants `math.pi`, `math.e`,
`math.tau` (their printed values; the exact bit patterns are irrelevant to
every stated property). -/
def ratPi : ℚ := 3.141592653589793

def ratE : ℚ := 2.718281828459045

def ratTau : ℚ := 6.283185307179586

/-- The `_ALLOWED_CONSTS` table. -/
def ALLOWED_CONSTS : String → Option Value
| "pi" => some (.vFloat ratPi)
| "e" => some (.vFloat ratE)
| "tau" => some (.vFloat ratTau)
| _ => none

/-- Binary operator node kinds (`ast.operator`): the seven whitelisted in
`_BIN_OPS` plus the bitwise/shift/matmul kinds Python's grammar also parses,
which `_eval_expr` must reject. -/
inductive BinKind where
| add | sub | mult | div | floorDiv | modK | powK
| bitAnd | bitOr | bitXor | lshift | rshift | matMult
deriving Repr, DecidableEq

/-- `type(node.op).__name__` for binary operator kinds (used in the
"Operator not allowed" message). -/
def BinKind.pyName : BinKind → String
| .add => "Add" | .sub => "Sub" | .mult => "Mult" | .div => "Div"
| .floorDiv => "FloorDiv" | .modK => "Mod" | .powK => "Pow"
| .bitAnd => "BitAnd" | .bitOr => "BitOr" | .bitXor => "BitXor"
| .lshift => "LShift" | .rshift => "RShift" | .matMult => "MatMult"

/-- The `_BIN_OPS` table: each whitelisted operator kind mapped to the
corresponding native operation; every other kind absent. -/
def BIN_OPS : BinKind → Option (Value → Value → Except EvalError Value)
| .add => some pyAdd
| .sub => some pySub
| .mult => some pyMul
| .div => some pyDiv
| .floorDiv => some pyFloorDiv
| .modK => some pyMod
| .powK => some pyPow
| _ => none

/-- Unary operator node kinds (`ast.unaryop`): `UAdd`/`USub` are whitelisted
in `_UNARY_OPS`; `Not`/`Invert` parse but must be rejected. -/
inductive UnaryKind where
| uAdd | uSub | notK | invert
deriving Repr, DecidableEq

/-- `type(node.op).__name__` for unary operator kinds. -/
def UnaryKind.pyName : UnaryKind → String
| .uAdd => "UAdd" | .uSub => "USub" | .notK => "Not" | .invert => "Invert"

/-- The `_UNARY_OPS` table. -/
def UNARY_OPS : UnaryKind → Option (Value → Except EvalError Value)
| .uAdd => some pyPos
| .uSub => some pyNeg
| _ => none

/-- Comparison operator node kinds (`ast.cmpop`): the six in `_CMP_OPS`
plus `Is`/`IsNot`/`In`/`NotIn`, which parse but must be rejected. -/
inductive CmpKind where
| eq | ne | lt | le | gt | ge | isK | isNotK | inK | notInK
deriving Repr, DecidableEq

/-- The `_CMP_OPS` table, returning the comparison's boolean. -/
def CMP_OPS : CmpKind → Option (Value → Value → Except EvalError Bool)
| .eq => some (fun a b => .ok (pyEq a b))
| .ne => some (fun a b => .ok (!pyEq a b))
| .lt => some pyLt
| .le => some pyLe
| .gt => some pyGt
| .ge => some pyGe
| _ => none

/-- Boolean operator node kinds (`ast.boolop`): `And` and `Or` are the only
two Python has, so the source's final "Boolean operator not allowed" raise
is unreachable. -/
inductive BoolKind where
| andK | orK
deriving Repr, DecidableEq

/-- Constant literal payloads (`ast.Constant.value`): numbers and booleans
evaluate; strings and `None` (and any other constant) are rejected by the
Literal rule. -/
inductive PyConst where
| int (n : Int)
| float (q : ℚ)
| bool (b : Bool)
| str (s : String)
| noneC
deriving Repr, DecidableEq

/-- Expression nodes reachable from `SafeEval._eval_expr`, mirroring the
`ast` node classes it dispatches on.  `call` keeps whether the source call
had keyword arguments (their value expressions are never evaluated, so only
their presence matters); `unsupported` stands for any other `ast` node kind,
carrying `type(node).__name__`. -/
inductive Expr where
| constant (c : PyConst)
| name (id : String)
| binOp (op : BinKind) (left right : Expr)
| unaryOp (op : UnaryKind) (operand : Expr)
| call (func : Expr) (args : List Expr) (hasKeywords : Bool)
| compare (left : Expr) (links : List (CmpKind × Expr))
| boolOp (op : BoolKind) (values : List Expr)
| ifExp (test body orelse : Expr)
| tuple (elts : List Expr)
| unsupported (typeName : String)
deriving Repr

/-- Is the expression a bare `ast.Name` (the only allowed callee shape)? -/
def Expr.isNameNode : Expr → Bool
| .name _ => true
| _ => false

/-- The variable environment `self.vars`: an insertion-ordered mapping with
unique keys, like a Python dict. -/
abbrev Env := List (String × Value)

/-- Dict lookup. -/
def envLookup (env : Env) (s : String) : Option Value :=
  match List.find? (fun p => p.1 == s) env with
  | some p => some p.2
  | none => none

/-- Dict update `env[s] = v`: overwrite an existing key in place, else append. -/
def envSet (env : Env) (s : String) (v : Value) : Env :=
  match List.find? (fun p => p.1 == s) env with
  | some _ => List.map (fun p => if p.1 == s then (s, v) else p) env
  | none => env ++ [(s, v)]

/-- Evaluator state: `vars` is the `self.vars` dict; `calls` records the
names of whitelisted functions actually invoked (appended exactly where the
source executes `_ALLOWED_FUNCS[func_name](*args)`), making invocation and
evaluation order observable. -/
structure EvState where
  vars : Env
  calls : List String
deriving Repr

mutual
/-- `SafeEval._eval_expr`, node by node in source order.  The state is
threaded through every recursive call (as `self` is in the source); a raised
exception aborts the enclosing computation immediately, carrying the state
reached so far. -/
def evalExpr (st : EvState) : Expr → EvState × Except EvalError Value
| .constant c =>
  -- `ast.Constant`: numbers and booleans pass; anything else is rejected.
  match c with
  | .int n => (st, .ok (.vInt n))
  | .float q => (st, .ok (.vFloat q))
  | .bool b => (st, .ok (.vBool b))
  | _ => (st, .error (.valueError "Only numeric and boolean constants are allowed."))
| .name s =>
  -- `ast.Name`: `self.vars` first, then `_ALLOWED_CONSTS`, else unknown.
  match envLookup st.vars s with
  | some v => (st, .ok v)
  | none =>
    match ALLOWED_CONSTS s with
    | some v => (st, .ok v)
    | none => (st, .error (.valueError ("Unknown variable or constant: " ++ s)))
| .binOp k l r =>
  -- `ast.BinOp`: both operands are evaluated before the table lookup.
  match evalExpr st l with
  | (st1, .error e) => (st1, .error e)
  | (st1, .ok lv) =>
    match evalExpr st1 r with
    | (st2, .error e) => (st2, .error e)
    | (st2, .ok rv) =>
      match BIN_OPS k with
      | some f => (st2, f lv rv)
      | none => (st2, .error (.valueError ("Operator not allowed: " ++ k.pyName)))
| .unaryOp k o =>
  match evalExpr st o with
  | (st1, .error e) => (st1, .error e)
  | (st1, .ok v) =>
    match UNARY_OPS k with
    | some f => (st1, f v)
    | none => (st1, .error (.valueError ("Unary operator not allowed: " ++ k.pyName)))
| .call f args kw =>
  -- `ast.Call`: bare-name callee check, whitelist check, argument
  -- evaluation left to right, keyword check, then — and only then — the
  -- invocation (recorded in `calls`).
  match f with
  | .name s =>
    match ALLOWED_FUNCS s with
    | none => (st, .error (.valueError ("Function not allowed: " ++ s)))
    | some fn =>
      match evalArgs st args with
      | (st1, .error e) => (st1, .error e)
      | (st1, .ok vals) =>
        if kw then (st1, .error (.valueError "Keyword arguments are not allowed."))
        else (⟨st1.vars, st1.calls ++ [s]⟩, fn vals)
  | _ => (st, .error (.valueError "Only direct function calls are allowed."))
| .compare left [(k, re)] =>
  -- `ast.Compare`, the simple-binary path (exactly one comparator).
  match evalExpr st left with
  | (st1, .error e) => (st1, .error e)
  | (st1, .ok lv) =>
    match evalExpr st1 re with
    | (st2, .error e) => (st2, .error e)
    | (st2, .ok rv) =>
      match CMP_OPS k with
      | some f =>
        (st2, match f lv rv with
              | .ok b => .ok (.vBool b)
              | .error e => .error e)
      | none => (st2, .error (.valueError "Comparison operator not allowed."))
| .compare left links =>
  -- `ast.Compare`, the chain-folding path (taken by the source whenever
  -- there is not exactly one comparator).
  match evalExpr st left with
  | (st1, .error e) => (st1, .error e)
  | (st1, .ok lv) => evalChain st1 lv links
| .boolOp k vs =>
  -- `ast.BoolOp`: `And`/`Or` are the only kinds Python produces, so the
  -- source's trailing "Boolean operator not allowed" raise is unreachable.
  match k with
  | .andK => evalAnd st vs
  | .orK => evalOr st vs
| .ifExp t b o =>
  -- `ast.IfExp`: only the taken branch is evaluated.
  match evalExpr st t with
  | (st1, .error e) => (st1, .error e)
  | (st1, .ok tv) => if tv.truthy then evalExpr st1 b else evalExpr st1 o
| .tuple elts =>
  match evalArgs st elts with
  | (st1, .error e) => (st1, .error e)
  | (st1, .ok vs) => (st1, .ok (.vTuple vs))
| .unsupported tn => (st, .error (.valueError ("Unsupported expression: " ++ tn)))
termination_by e => sizeOf e

/-- The argument list comprehension `[self._eval_expr(a) for a in node.args]`
(also `ast.Tuple` elements): left to right, aborting on the first raise. -/
def evalArgs (st : EvState) : List Expr → EvState × Except EvalError (List Value)
| [] => (st, .ok [])
| e :: rest =>
  match evalExpr st e with
  | (st1, .error er) => (st1, .error er)
  | (st1, .ok v) =>
    match evalArgs st1 rest with
    | (st2, .error er) => (st2, .error er)
    | (st2, .ok vs) => (st2, .ok (v :: vs))
termination_by l => sizeOf l

/-- The chained-comparison fold: evaluate the next comparator, check the
operator against `_CMP_OPS`, apply it to the running left value; a failing
link breaks out with `False`, a holding one continues with the comparator's
value as the new left operand; an exhausted chain returns `True`. -/
def evalChain (st : EvState) (cur : Value) :
    List (CmpKind × Expr) → EvState × Except EvalError Value
| [] => (st, .ok (.vBool true))
| (k, ce) :: rest =>
  match evalExpr st ce with
  | (st1, .error er) => (st1, .error er)
  | (st1, .ok rv) =>
    match CMP_OPS k with
    | none => (st1, .error (.valueError "Comparison operator not allowed."))
    | some f =>
      match f cur rv with
      | .error er => (st1, .error er)
      | .ok b => if b then evalChain st1 rv rest else (st1, .ok (.vBool false))
termination_by l => sizeOf l

/-- The `and` loop: return `False` at the first falsy operand (remaining
operands unevaluated), `True` when all are truthy. -/
def evalAnd (st : EvState) : List Expr → EvState × Except EvalError Value
| [] => (st, .ok (.vBool true))
| v :: rest =>
  match evalExpr st v with
  | (st1, .error er) => (st1, .error er)
  | (st1, .ok val) => if val.truthy then evalAnd st1 rest else (st1, .ok (.vBool false))
termination_by l => sizeOf l

/-- The `or` loop: return `True` at the first truthy operand, `False` when
none is. -/
def evalOr (st : EvState) : List Expr → EvState × Except EvalError Value
| [] => (st, .ok (.vBool false))
| v :: rest =>
  match evalExpr st v with
  | (st1, .error er) => (st1, .error er)
  | (st1, .ok val) => if val.truthy then (st1, .ok (.vBool true)) else evalOr st1 rest
termination_by l => sizeOf l
end

/-- Assignment targets (`node.targets[i]`): a bare name, or any other target
shape (tuple destructuring, attribute, subscript, ...), which is rejected. -/
inductive Target where
| name (id : String)
| otherT (desc : String)
deriving Repr

/-- Statements of the parsed module body: expression statements, assignments
(with their full target list), or any other statement kind, which the loop
rejects. -/
inductive Stmt where
| exprS (e : Expr)
| assign (targets : List Target) (value : Expr)
| otherS (desc : String)
deriving Repr

/-- The statement loop of `SafeEval.eval` (the `else` branch): for each
statement, assignments check the target count and shape, then evaluate the
right-hand side and store it; expression statements evaluate and become the
running `last_value`; anything else raises.  A raise aborts the loop,
keeping the state (and hence the bindings) reached so far. -/
def evalLoop (st : EvState) (lastValue : Option Value) :
    List Stmt → EvState × Except EvalError (Option Value)
| [] => (st, .ok lastValue)
| s :: rest =>
  match s with
  | .assign targets value =>
    match targets with
    | [t] =>
      match t with
      | .name x =>
        match evalExpr st value with
        | (st1, .error e) => (st1, .error e)
        | (st1, .ok v) => evalLoop ⟨envSet st1.vars x v, st1.calls⟩ (some v) rest
      | .otherT _ => (st, .error (.valueError "Can only assign to variable names."))
    | _ => (st, .error (.valueError "Only single-target assignment is allowed."))
  | .exprS e =>
    match evalExpr st e with
    | (st1, .error e) => (st1, .error e)
    | (st1, .ok v) => evalLoop st1 (some v) rest
  | .otherS _ => (st, .error (.valueError "Only expressions and simple assignments are allowed."))

/-- `SafeEval.eval` on an already-parsed module body: an empty body returns
`None`; a body that is exactly one expression statement returns its value;
otherwise the statement loop runs with `last_value = None`. -/
def SafeEval.eval (st : EvState) : List Stmt → EvState × Except EvalError (Option Value)
| [] => (st, .ok none)
| [.exprS e] =>
  match evalExpr st e with
  | (st1, .error er) => (st1, .error er)
  | (st1, .ok v) => (st1, .ok (some v))
| body => evalLoop st none body

/-- Is this value a numeric zero (the divisors that raise
`ZeroDivisionError`: `0`, `0.0`, `False`)? -/
def Value.isZeroNum : Value → Bool
| v => match v.asNum with
  | some x => x.q == 0
  | none => false

/-- A heap of dicts, indexed by address.  It makes the aliasing behaviour of
`SafeEval.__init__` observable: `dict(variables)` allocates a NEW dict with
the caller's contents, so later assignments mutate the evaluator's own cell,
never the caller's. -/
abbrev Store := List Env

/-- `SafeEval.__init__(variables)`: allocate a fresh dict at the end of the
store — empty for `None`, a copy of the caller's dict (`dict(variables)`)
otherwise — returning the store and the address of `self.vars`. -/
def SafeEval.initStore (store : Store) (varsArg : Option Nat) : Store × Nat :=
  match varsArg with
  | none => (store ++ [[]], store.length)
  | some a => (store ++ [store.getD a []], store.length)

/-- `SafeEval.eval` as seen through the store: read `self.vars` from the
evaluator's address, run the evaluator, write the resulting dict back to
that same address (the only cell the call can mutate). -/
def SafeEval.evalStore (store : Store) (selfAddr : Nat) (body : List Stmt) :
    Store × Except EvalError (Option Value) :=
  match SafeEval.eval ⟨store.getD selfAddr [], []⟩ body with
  | (st1, r) => (store.set selfAddr st1.vars, r)

set_option maxHeartbeats 1000000

/-- Expression evaluation never touches `self.vars`: across all five mutually
recursive evaluation functions, the `vars` component of the resulting state is
the input one, whether evaluation succeeds or raises.  (`_eval_expr` contains
no write to `self.vars`; only the assignment case of `SafeEval.eval` does.) -/
theorem eval_vars_all :
    (∀ st e, ((evalExpr st e).1).vars = st.vars) ∧
    (∀ st l, ((evalOr st l).1).vars = st.vars) ∧
    (∀ st l, ((evalAnd st l).1).vars = st.vars) ∧
    (∀ st cur l, ((evalChain st cur l).1).vars = st.vars) ∧
    (∀ st l, ((evalArgs st l).1).vars = st.vars) := by
  apply evalExpr.mutual_induct <;> intros <;>
    simp_all only [evalExpr, evalArgs, evalChain, evalAnd, evalOr] <;> simp_all

/-- The statement loop processes an appended suffix exactly as a continuation
of the prefix: statement-by-statement execution. -/
theorem evalLoop_append (ss rest : List Stmt) : ∀ st lastValue,
    evalLoop st lastValue (ss ++ rest) =
      match evalLoop st lastValue ss with
      | (st1, .ok l1) => evalLoop st1 l1 rest
      | (st1, .error e) => (st1, .error e) := by
  induction ss with
  | nil => intro st lastValue; simp [evalLoop]
  | cons s ss ih =>
    intro st lastValue
    cases s with
    | exprS e =>
      simp only [List.cons_append, evalLoop]
      rcases h : evalExpr st e with ⟨st1, r⟩
      cases r <;> simp [ih]
    | assign targets value =>
      match targets with
      | [] => simp [evalLoop]
      | [.name x] =>
        simp only [List.cons_append, evalLoop]
        rcases h : evalExpr st value with ⟨st1, r⟩
        cases r <;> simp [ih]
      | [.otherT d] => simp [evalLoop]
      | t1 :: t2 :: ts => simp [evalLoop]
    | otherS d => simp [evalLoop]

/-- On a non-empty body, `SafeEval.eval` agrees with the statement loop
started at `last_value = None` (the single-expression fast path returns the
same pair the loop would). -/
theorem eval_eq_loop : ∀ (body : List Stmt) (st : EvState), body ≠ [] →
    SafeEval.eval st body = evalLoop st none body := by
  intro body st hne
  match body with
  | [] => exact absurd rfl hne
  | [.exprS e] =>
    rcases h : evalExpr st e with ⟨st1, r⟩
    cases r <;> simp [SafeEval.eval, evalLoop, h]
  | .exprS e :: s2 :: srest => simp [SafeEval.eval]
  | .assign t v :: srest => simp [SafeEval.eval]
  | .otherS d :: srest => simp [SafeEval.eval]

/-- A failing statement adds no binding: if running one statement raises, the
resulting `vars` is unchanged. -/
theorem evalLoop_single_error (s : Stmt) (st st2 : EvState) (lastValue : Option Value)
    (er : EvalError) (h : evalLoop st lastValue [s] = (st2, .error er)) :
    st2.vars = st.vars := by
  cases s with
  | exprS e =>
    simp only [evalLoop] at h
    rcases he : evalExpr st e with ⟨st1, r⟩
    rw [he] at h
    cases r with
    | error e0 =>
      injection h with h1 h2
      have hv := eval_vars_all.1 st e
      rw [he] at hv
      rw [← h1]
      exact hv
    | ok v => simp [evalLoop] at h
  | assign targets value =>
    match targets with
    | [] =>
      simp only [evalLoop] at h
      injection h with h1 h2
      rw [← h1]
    | [.name x] =>
      simp only [evalLoop] at h
      rcases he : evalExpr st value with ⟨st1, r⟩
      rw [he] at h
      cases r with
      | error e0 =>
        injection h with h1 h2
        have hv := eval_vars_all.1 st value
        rw [he] at hv
        rw [← h1]
        exact hv
      | ok v => simp [evalLoop] at h
    | [.otherT d] =>
      simp only [evalLoop] at h
      injection h with h1 h2
      rw [← h1]
    | t1 :: t2 :: ts =>
      simp only [evalLoop] at h
      injection h with h1 h2
      rw [← h1]
  | otherS d =>
    simp only [evalLoop] at h
    injection h with h1 h2
    rw [← h1]

/-- The `and` loop only ever returns strict booleans. -/
theorem evalAnd_ok_bool : ∀ (l : List Expr) (st st2 : EvState) (w : Value),
    evalAnd st l = (st2, .ok w) → ∃ b, w = .vBool b := by
  intro l
  induction l with
  | nil => intro st st2 w h; simp [evalAnd] at h; exact ⟨true, h.2.symm⟩
  | cons v rest ih =>
    intro st st2 w h
    simp only [evalAnd] at h
    rcases he : evalExpr st v with ⟨st1, r⟩
    rw [he] at h
    cases r with
    | error e0 => simp at h
    | ok val =>
      simp only at h
      by_cases ht : val.truthy
      · rw [if_pos ht] at h; exact ih st1 st2 w h
      · rw [if_neg ht] at h
        injection h with h1 h2
        injection h2 with h3
        exact ⟨false, h3.symm⟩

/-- The `or` loop only ever returns strict booleans. -/
theorem evalOr_ok_bool : ∀ (l : List Expr) (st st2 : EvState) (w : Value),
    evalOr st l = (st2, .ok w) → ∃ b, w = .vBool b := by
  intro l
  induction l with
  | nil => intro st st2 w h; simp [evalOr] at h; exact ⟨false, h.2.symm⟩
  | cons v rest ih =>
    intro st st2 w h
    simp only [evalOr] at h
    rcases he : evalExpr st v with ⟨st1, r⟩
    rw [he] at h
    cases r with
    | error e0 => simp at h
    | ok val =>
      simp only at h
      by_cases ht : val.truthy
      · rw [if_pos ht] at h
        injection h with h1 h2
        injection h2 with h3
        exact ⟨true, h3.symm⟩
      · rw [if_neg ht] at h; exact ih st1 st2 w h

/-- Setting the freshly appended cell of a store rewrites exactly that cell. -/
theorem store_set_append (l : Store) (c w : Env) : (l ++ [c]).set l.length w = l ++ [w] := by
  induction l with
  | nil => rfl
  | cons x xs ih => simp [List.set, ih]

/-- C10: evaluating any expression node never mutates the environment — for
every expression tree and every state, the `vars` mapping after `evalExpr`,
whether it returns a value or raises, equals the one before; only the
assignment case of the statement loop writes bindings. -/
theorem expr_eval_preserves_env :
    ∀ (st : EvState) (e : Expr), ((evalExpr st e).1).vars = st.vars :=
  eval_vars_all.1

/-- C8 (amended): the Literal rule returns embedded numbers and booleans
unchanged, and rejects every other constant (string literals, `None`) right
there — at evaluation time — with the described `ValueError`. -/
theorem literal_rule_semantics :
    ∀ (st : EvState) (n : Int) (q : ℚ) (b : Bool) (s : String),
    (evalExpr st (.constant (.int n)) = (st, .ok (.vInt n))) ∧
    (evalExpr st (.constant (.float q)) = (st, .ok (.vFloat q))) ∧
    (evalExpr st (.constant (.bool b)) = (st, .ok (.vBool b))) ∧
    (evalExpr st (.constant (.str s)) =
      (st, .error (.valueError "Only numeric and boolean constants are allowed."))) ∧
    (evalExpr st (.constant .noneC) =
      (st, .error (.valueError "Only numeric and boolean constants are allowed."))) := by
  intro st n q b s
  refine ⟨?_, ?_, ?_, ?_, ?_⟩ <;> simp [evalExpr]

/-- C8 counterexample: a string literal is NOT rejected at parse time — it
reaches the Literal case of `_eval_expr`, which rejects it there with a
`ValueError` whose message is not of the syntax-error class (the source
prefixes parse-time failures with "Syntax error:"). -/
theorem string_literal_eval_time_cex :
    evalExpr ⟨[], []⟩ (.constant (.str "x")) =
      (⟨[], []⟩, .error (.valueError "Only numeric and boolean constants are allowed.")) ∧
    EvalError.valueError "Only numeric and boolean constants are allowed." ≠
      EvalError.valueError "Syntax error: invalid syntax" := by
  constructor
  · simp [evalExpr]
  · simp

/-- C5: name lookup consults the Environment first, then the constant table
`{pi, e, tau}`, and fails with an unknown-name error carrying the name when
both miss; concretely, after `pi = 1` the Environment binding shadows the
constant and `pi` evaluates to `1`. -/
theorem name_lookup_order :
    ∀ (st : EvState) (s : String) (v : Value),
    (envLookup st.vars s = some v → evalExpr st (.name s) = (st, .ok v)) ∧
    (envLookup st.vars s = none → ALLOWED_CONSTS s = some v →
      evalExpr st (.name s) = (st, .ok v)) ∧
    (envLookup st.vars s = none → ALLOWED_CONSTS s = none →
      evalExpr st (.name s) =
        (st, .error (.valueError ("Unknown variable or constant: " ++ s)))) ∧
    (SafeEval.eval ⟨[], []⟩ [.assign [.name "pi"] (.constant (.int 1))] =
      (⟨[("pi", .vInt 1)], []⟩, .ok (some (.vInt 1)))) ∧
    (SafeEval.eval ⟨[("pi", .vInt 1)], []⟩ [.exprS (.name "pi")] =
      (⟨[("pi", .vInt 1)], []⟩, .ok (some (.vInt 1)))) := by
  intro st s v
  refine ⟨?_, ?_, ?_, ?_, ?_⟩
  · intro h; simp [evalExpr, h]
  · intro h hc; simp [evalExpr, h, hc]
  · intro h hc; simp [evalExpr, h, hc]
  · simp [SafeEval.eval, evalLoop, evalExpr, envSet, envLookup]
  · simp [SafeEval.eval, evalExpr, envLookup]

/-- Witness for `name_lookup_order`: the environment hit, the constant-table
hit and the unknown-name failure at concrete inputs. -/
theorem name_lookup_order_witness :
    evalExpr ⟨[("x", .vInt 7)], []⟩ (.name "x") = (⟨[("x", .vInt 7)], []⟩, .ok (.vInt 7)) ∧
    evalExpr ⟨[], []⟩ (.name "pi") = (⟨[], []⟩, .ok (.vFloat ratPi)) ∧
    evalExpr ⟨[], []⟩ (.name "zzz") =
      (⟨[], []⟩, .error (.valueError ("Unknown variable or constant: " ++ "zzz"))) := by
  refine ⟨?_, ?_, ?_⟩
  · exact (name_lookup_order ⟨[("x", .vInt 7)], []⟩ "x" (.vInt 7)).1 (by simp [envLookup])
  · exact (name_lookup_order ⟨[], []⟩ "pi" (.vFloat ratPi)).2.1 (by simp [envLookup])
      (by simp [ALLOWED_CONSTS])
  · exact (name_lookup_order ⟨[], []⟩ "zzz" (.vInt 0)).2.2.1 (by simp [envLookup])
      (by simp [ALLOWED_CONSTS])

/-- Did evaluation fail with an `ArithmeticError` (i.e. `ZeroDivisionError`)? -/
def isArithFailure : Except EvalError Value → Bool
| .error e => e.isArithmeticError
| .ok _ => false

/-- An int-like pair decomposes into the two int views. -/
theorem intPair_some {a b : Value} {m n : Int} (h : intPair a b = some (m, n)) :
    a.intLike = some m ∧ b.intLike = some n := by
  unfold intPair at h
  rcases ha : a.intLike with _ | m0 <;> rw [ha] at h <;>
    rcases hb : b.intLike with _ | n0 <;> rw [hb] at h <;> simp_all

/-- A numerically zero value whose int view exists has int view `0`. -/
theorem isZeroNum_intLike {b : Value} {n : Int} (hb : b.isZeroNum = true)
    (h : b.intLike = some n) : n = 0 := by
  cases b with
  | vInt k => simp_all [Value.intLike, Value.isZeroNum, Value.asNum]
  | vBool bb => cases bb <;> simp_all [Value.intLike, Value.isZeroNum, Value.asNum]
  | vFloat q => simp_all [Value.intLike]
  | vTuple l => simp_all [Value.intLike]

/-- C2: for every whitelisted binary operator, evaluating `a OP b` applies
exactly the native operation the `_BIN_OPS` table maps the operator to (the
table is the seven-entry 1:1 mapping listed in the second conjunct), and for
`/`, `//` and `%` a numeric left operand with a zero divisor yields the
recoverable `ZeroDivisionError` (an `ArithmeticError`), not a crash. -/
theorem binop_native_semantics :
    ∀ (st st1 st2 : EvState) (e1 e2 : Expr) (a b : Value) (op : BinKind)
      (f : Value → Value → Except EvalError Value),
    evalExpr st e1 = (st1, .ok a) →
    evalExpr st1 e2 = (st2, .ok b) →
    BIN_OPS op = some f →
    (evalExpr st (.binOp op e1 e2) = (st2, f a b)) ∧
    (BIN_OPS .add = some pyAdd ∧ BIN_OPS .sub = some pySub ∧
     BIN_OPS .mult = some pyMul ∧ BIN_OPS .div = some pyDiv ∧
     BIN_OPS .floorDiv = some pyFloorDiv ∧ BIN_OPS .modK = some pyMod ∧
     BIN_OPS .powK = some pyPow) ∧
    ((op = .div ∨ op = .floorDiv ∨ op = .modK) → a.asNum.isSome →
      b.isZeroNum = true → isArithFailure (f a b) = true) := by
  intro st st1 st2 e1 e2 a b op f h1 h2 hf
  refine ⟨by simp [evalExpr, h1, h2, hf], by simp [BIN_OPS], ?_⟩
  intro hop ha hb
  rcases hxa : a.asNum with _ | x
  · rw [hxa] at ha; simp at ha
  rcases hxb : b.asNum with _ | y
  · simp [Value.isZeroNum, hxb] at hb
  have hy0 : y.q = 0 := by simpa [Value.isZeroNum, hxb] using hb
  rcases hop with h | h | h <;> subst h <;>
    simp only [BIN_OPS, Option.some.injEq] at hf <;> subst hf <;>
    [unfold pyDiv; unfold pyFloorDiv; unfold pyMod] <;>
    rcases hip : intPair a b with _ | ⟨m, n⟩ <;>
    simp only [hip, hxa, hxb] <;>
    first
    | (have hn := isZeroNum_intLike hb (intPair_some hip).2
       subst hn
       simp [isArithFailure, EvalError.isArithmeticError])
    | simp [hy0, isArithFailure, EvalError.isArithmeticError]

/-- Witness for `binop_native_semantics`: `1 / 0` takes the native-table
path and raises `ZeroDivisionError: division by zero`. -/
theorem binop_native_semantics_witness :
    evalExpr ⟨[], []⟩ (.binOp .div (.constant (.int 1)) (.constant (.int 0))) =
      (⟨[], []⟩, pyDiv (.vInt 1) (.vInt 0)) ∧
    isArithFailure (pyDiv (.vInt 1) (.vInt 0)) = true := by
  have h := binop_native_semantics ⟨[], []⟩ ⟨[], []⟩ ⟨[], []⟩
    (.constant (.int 1)) (.constant (.int 0)) (.vInt 1) (.vInt 0) .div pyDiv
    (by simp [evalExpr]) (by simp [evalExpr]) rfl
  exact ⟨h.1, h.2.2 (Or.inl rfl) (by simp [Value.asNum])
    (by simp [Value.isZeroNum, Value.asNum])⟩

/-- C1: calls are safe.  A callee that is not a bare name is rejected with
the described error and the state — including the invocation trace — is
untouched (nothing is evaluated, no function invoked); a bare name outside
the `_ALLOWED_FUNCS` whitelist is rejected naming it, likewise without
evaluating anything; when the call is allowed, the arguments are evaluated
left to right (head first, threading the state into the rest); keyword
arguments then fail with the described error with no invocation of the
callee recorded; only the allowed, keyword-free call appends the callee to
the invocation trace and applies the whitelisted function. -/
theorem call_whitelist_safety :
    ∀ (st st1 : EvState) (fe e : Expr) (args rest : List Expr) (kw : Bool)
      (s : String) (fn : List Value → Except EvalError Value) (vals : List Value),
    (fe.isNameNode = false →
      evalExpr st (.call fe args kw) =
        (st, .error (.valueError "Only direct function calls are allowed."))) ∧
    (ALLOWED_FUNCS s = none →
      evalExpr st (.call (.name s) args kw) =
        (st, .error (.valueError ("Function not allowed: " ++ s)))) ∧
    (evalArgs st (e :: rest) =
      (match evalExpr st e with
       | (st2, .ok v) =>
         (match evalArgs st2 rest with
          | (st3, .ok vs) => (st3, .ok (v :: vs))
          | (st3, .error er) => (st3, .error er))
       | (st2, .error er) => (st2, .error er))) ∧
    (ALLOWED_FUNCS s = some fn → evalArgs st args = (st1, .ok vals) →
      evalExpr st (.call (.name s) args true) =
        (st1, .error (.valueError "Keyword arguments are not allowed."))) ∧
    (ALLOWED_FUNCS s = some fn → evalArgs st args = (st1, .ok vals) →
      evalExpr st (.call (.name s) args false) =
        (⟨st1.vars, st1.calls ++ [s]⟩, fn vals)) := by
  intro st st1 fe e args rest kw s fn vals
  refine ⟨?_, ?_, ?_, ?_, ?_⟩
  · intro h; cases fe <;> simp_all [Expr.isNameNode, evalExpr]
  · intro h; simp [evalExpr, h]
  · rcases he : evalExpr st e with ⟨st2, r⟩
    cases r with
    | error er => simp [evalArgs, he]
    | ok v =>
      rcases ha : evalArgs st2 rest with ⟨st3, r2⟩
      cases r2 <;> simp [evalArgs, he, ha]
  · intro h ha; simp [evalExpr, h, ha]
  · intro h ha; simp [evalExpr, h, ha]

/-- Witness for `call_whitelist_safety`: `open('x')` is rejected naming
`open` with nothing invoked; a computed callee is rejected; keyword
arguments on a whitelisted call fail after the arguments with the callee
never invoked. -/
theorem call_whitelist_safety_witness :
    evalExpr ⟨[], []⟩ (.call (.name "open") [.constant (.str "x")] false) =
      (⟨[], []⟩, .error (.valueError ("Function not allowed: " ++ "open"))) ∧
    evalExpr ⟨[], []⟩ (.call (.constant (.int 1)) [] false) =
      (⟨[], []⟩, .error (.valueError "Only direct function calls are allowed.")) ∧
    evalExpr ⟨[], []⟩ (.call (.name "max") [.constant (.int 1), .constant (.int 2)] true) =
      (⟨[], []⟩, .error (.valueError "Keyword arguments are not allowed.")) := by
  refine ⟨?_, ?_, ?_⟩
  · exact (call_whitelist_safety ⟨[], []⟩ ⟨[], []⟩ (.name "open") (.constant (.int 1))
      [.constant (.str "x")] [] false "open" (fun _ => .ok (.vInt 0)) []).2.1 rfl
  · exact (call_whitelist_safety ⟨[], []⟩ ⟨[], []⟩ (.constant (.int 1)) (.constant (.int 1))
      [] [] false "" (fun _ => .ok (.vInt 0)) []).1 rfl
  · exact (call_whitelist_safety ⟨[], []⟩ ⟨[], []⟩ (.name "max") (.constant (.int 1))
      [.constant (.int 1), .constant (.int 2)] [] true "max" fnMax
      [.vInt 1, .vInt 2]).2.2.2.1 rfl (by simp [evalArgs, evalExpr])

/-- C3: chained comparisons evaluate each operand at most once, left to
right.  A chain first evaluates the left operand once and then folds the
links; each step evaluates the next comparator exactly once and applies the
link's operator to the running left value — a failing link returns the
strict `False` immediately, with the remaining comparators not evaluated (so
a later operand that would raise is never reached, third concrete conjunct:
`2 < 1 < 1/0` returns `False` instead of raising), while a holding link
threads the comparator's value on as the new left operand; an exhausted
chain returns `True`, so the result is `True` only if every link holds. -/
theorem compare_chain_shortcircuit :
    ∀ (st st1 : EvState) (left ce : Expr) (links rest : List (CmpKind × Expr))
      (k : CmpKind) (cur rv : Value) (f : Value → Value → Except EvalError Bool),
    (links.length ≠ 1 →
      evalExpr st (.compare left links) =
        (match evalExpr st left with
         | (st2, .ok lv) => evalChain st2 lv links
         | (st2, .error e) => (st2, .error e))) ∧
    (evalChain st cur [] = (st, .ok (.vBool true))) ∧
    (evalExpr st ce = (st1, .ok rv) → CMP_OPS k = some f →
      (f cur rv = .ok false →
        evalChain st cur ((k, ce) :: rest) = (st1, .ok (.vBool false))) ∧
      (f cur rv = .ok true →
        evalChain st cur ((k, ce) :: rest) = evalChain st1 rv rest)) ∧
    (evalExpr ⟨[], []⟩ (.compare (.constant (.int 1))
        [(.lt, .constant (.int 2)), (.lt, .constant (.int 3))]) =
      (⟨[], []⟩, .ok (.vBool true))) ∧
    (evalExpr ⟨[], []⟩ (.compare (.constant (.int 1))
        [(.lt, .constant (.int 2)), (.lt, .constant (.int 1))]) =
      (⟨[], []⟩, .ok (.vBool false))) ∧
    (evalExpr ⟨[], []⟩ (.compare (.constant (.int 2))
        [(.lt, .constant (.int 1)),
         (.lt, .binOp .div (.constant (.int 1)) (.constant (.int 0)))]) =
      (⟨[], []⟩, .ok (.vBool false))) := by
  intro st st1 left ce links rest k cur rv f
  refine ⟨?_, by simp [evalChain], ?_, ?_, ?_, ?_⟩
  · intro hlen
    rcases he : evalExpr st left with ⟨st2, r⟩
    match links with
    | [] => cases r <;> simp [evalExpr, he]
    | [(k0, e0)] => simp at hlen
    | (k0, e0) :: (k1, e1) :: ls => cases r <;> simp [evalExpr, he]
  · intro he hk
    constructor
    · intro hfalse; simp [evalChain, he, hk, hfalse]
    · intro htrue; simp [evalChain, he, hk, htrue]
  · simp [evalExpr, evalChain, CMP_OPS, pyLt, Value.toRatD]; decide
  · simp [evalExpr, evalChain, CMP_OPS, pyLt, Value.toRatD]
  · simp [evalExpr, evalChain, CMP_OPS, pyLt, Value.toRatD]

/-- Witness for `compare_chain_shortcircuit`: a concrete failing first link
short-circuits the chain to `False` without touching the rest. -/
theorem compare_chain_shortcircuit_witness :
    evalChain ⟨[], []⟩ (.vInt 2)
      [(.lt, .constant (.int 1)),
       (.lt, .binOp .div (.constant (.int 1)) (.constant (.int 0)))] =
      (⟨[], []⟩, .ok (.vBool false)) := by
  have h := (compare_chain_shortcircuit ⟨[], []⟩ ⟨[], []⟩ (.constant (.int 2))
    (.constant (.int 1))
    [(.lt, .constant (.int 1)),
     (.lt, .binOp .div (.constant (.int 1)) (.constant (.int 0)))]
    [(.lt, .binOp .div (.constant (.int 1)) (.constant (.int 0)))]
    .lt (.vInt 2) (.vInt 1) pyLt).2.2.1
    (by simp [evalExpr]) rfl
  exact h.1 (by simp [pyLt, Value.toRatD])

/-- C4: boolean operators evaluate operands left to right, short-circuit,
and always return a normalized strict boolean, never the triggering
operand's own value.  `and` returns `False` at the first falsy operand
(remaining operands unevaluated) and `True` when all operands are truthy;
`or` symmetrically returns `True` at the first truthy operand and `False`
when none is; every successful `BoolOp` evaluation is a `vBool` (last
conjunct), and `or` over the single truthy operand `5` returns `True`, not
`5` (concrete conjunct). -/
theorem boolop_normalized_shortcircuit :
    ∀ (st st1 st2 : EvState) (k : BoolKind) (vs rest : List Expr) (v : Expr)
      (val w : Value),
    (evalExpr st (.boolOp .andK vs) = evalAnd st vs) ∧
    (evalExpr st (.boolOp .orK vs) = evalOr st vs) ∧
    (evalAnd st [] = (st, .ok (.vBool true))) ∧
    (evalOr st [] = (st, .ok (.vBool false))) ∧
    (evalExpr st v = (st1, .ok val) →
      (val.truthy = false → evalAnd st (v :: rest) = (st1, .ok (.vBool false))) ∧
      (val.truthy = true → evalAnd st (v :: rest) = evalAnd st1 rest) ∧
      (val.truthy = true → evalOr st (v :: rest) = (st1, .ok (.vBool true))) ∧
      (val.truthy = false → evalOr st (v :: rest) = evalOr st1 rest)) ∧
    (evalExpr st (.boolOp k vs) = (st2, .ok w) → ∃ b, w = .vBool b) ∧
    (evalExpr ⟨[], []⟩ (.boolOp .orK [.constant (.int 5)]) =
      (⟨[], []⟩, .ok (.vBool true))) := by
  intro st st1 st2 k vs rest v val w
  refine ⟨by simp [evalExpr], by simp [evalExpr], by simp [evalAnd],
    by simp [evalOr], ?_, ?_, ?_⟩
  · intro he
    refine ⟨?_, ?_, ?_, ?_⟩ <;> intro ht <;> simp [evalAnd, evalOr, he, ht]
  · intro h
    cases k with
    | andK =>
      rw [show evalExpr st (.boolOp .andK vs) = evalAnd st vs from by simp [evalExpr]] at h
      exact evalAnd_ok_bool vs st st2 w h
    | orK =>
      rw [show evalExpr st (.boolOp .orK vs) = evalOr st vs from by simp [evalExpr]] at h
      exact evalOr_ok_bool vs st st2 w h
  · simp [evalExpr, evalOr, Value.truthy]

/-- Witness for `boolop_normalized_shortcircuit`: `False and (1/0 > 0)`
short-circuits to the strict `False` without evaluating the raising
operand. -/
theorem boolop_normalized_shortcircuit_witness :
    evalAnd ⟨[], []⟩
      [.constant (.bool false),
       .binOp .div (.constant (.int 1)) (.constant (.int 0))] =
      (⟨[], []⟩, .ok (.vBool false)) := by
  have h := (boolop_normalized_shortcircuit ⟨[], []⟩ ⟨[], []⟩ ⟨[], []⟩ .andK
    [.constant (.bool false)]
    [.binOp .div (.constant (.int 1)) (.constant (.int 0))]
    (.constant (.bool false)) (.vBool false) (.vBool false)).2.2.2.2.1
    (by simp [evalExpr])
  exact h.1 rfl

/-- C6: the program's result is the value of the last statement evaluated —
after a succeeding prefix, a final expression statement makes its value the
result, and a final assignment makes the ASSIGNED value the result while
storing it in the Environment; concretely `x = 1; x + 1` returns `2`
leaving `x` bound to `1`, and `x = 5` followed by `x * 2` on the same
Environment returns `10`. -/
theorem sequence_last_value :
    ∀ (st st1 st2 : EvState) (lastValue l1 : Option Value) (ss : List Stmt)
      (e : Expr) (x : String) (v : Value),
    (evalLoop st lastValue ss = (st1, .ok l1) → evalExpr st1 e = (st2, .ok v) →
      evalLoop st lastValue (ss ++ [.exprS e]) = (st2, .ok (some v))) ∧
    (evalLoop st lastValue ss = (st1, .ok l1) → evalExpr st1 e = (st2, .ok v) →
      evalLoop st lastValue (ss ++ [.assign [.name x] e]) =
        (⟨envSet st2.vars x v, st2.calls⟩, .ok (some v))) ∧
    (SafeEval.eval ⟨[], []⟩
        [.assign [.name "x"] (.constant (.int 1)),
         .exprS (.binOp .add (.name "x") (.constant (.int 1)))] =
      (⟨[("x", .vInt 1)], []⟩, .ok (some (.vInt 2)))) ∧
    (SafeEval.eval ⟨[], []⟩ [.assign [.name "x"] (.constant (.int 5))] =
      (⟨[("x", .vInt 5)], []⟩, .ok (some (.vInt 5)))) ∧
    (SafeEval.eval ⟨[("x", .vInt 5)], []⟩
        [.exprS (.binOp .mult (.name "x") (.constant (.int 2)))] =
      (⟨[("x", .vInt 5)], []⟩, .ok (some (.vInt 10)))) := by
  intro st st1 st2 lastValue l1 ss e x v
  refine ⟨?_, ?_, ?_, ?_, ?_⟩
  · intro hss he
    rw [evalLoop_append, hss]
    simp [evalLoop, he]
  · intro hss he
    rw [evalLoop_append, hss]
    simp [evalLoop, he]
  · simp [SafeEval.eval, evalLoop, evalExpr, envSet, envLookup, BIN_OPS, pyAdd,
      intPair, Value.intLike]
  · simp [SafeEval.eval, evalLoop, evalExpr, envSet, envLookup]
  · simp [SafeEval.eval, evalLoop, evalExpr, envLookup, BIN_OPS, pyMul,
      intPair, Value.intLike]

/-- Witness for `sequence_last_value`: appending `x + 1` after `x = 1`
returns the final expression's value. -/
theorem sequence_last_value_witness :
    evalLoop ⟨[], []⟩ none
      ([.assign [.name "x"] (.constant (.int 1))] ++
       [.exprS (.binOp .add (.name "x") (.constant (.int 1)))]) =
      (⟨[("x", .vInt 1)], []⟩, .ok (some (.vInt 2))) := by
  have h := (sequence_last_value ⟨[], []⟩ ⟨[("x", .vInt 1)], []⟩ ⟨[("x", .vInt 1)], []⟩
    none (some (.vInt 1)) [.assign [.name "x"] (.constant (.int 1))]
    (.binOp .add (.name "x") (.constant (.int 1))) "x" (.vInt 2)).1
    (by simp [evalLoop, evalExpr, envSet])
    (by simp [evalExpr, envLookup, BIN_OPS, pyAdd, intPair, Value.intLike])
  exact h

/-- C7: every evaluation failure is a recoverable described failure that
never corrupts the Environment: when a statement of a sequence fails after a
succeeding prefix, `SafeEval.eval` returns that described error, the
statements after the failing one are not run, the assignments made by the
prefix remain applied, and the failing statement itself adds no binding (the
resulting `vars` is exactly the prefix's). -/
theorem failure_preserves_bindings :
    ∀ (st st1 st2 : EvState) (ss rest : List Stmt) (s : Stmt) (l1 : Option Value)
      (er : EvalError),
    evalLoop st none ss = (st1, .ok l1) →
    evalLoop st1 l1 [s] = (st2, .error er) →
    SafeEval.eval st (ss ++ s :: rest) = (st2, .error er) ∧ st2.vars = st1.vars := by
  intro st st1 st2 ss rest s l1 er hss hs
  have h1 : evalLoop st none (ss ++ [s]) = (st2, .error er) := by
    rw [evalLoop_append, hss]; exact hs
  have h2 : evalLoop st none (ss ++ s :: rest) = (st2, .error er) := by
    have hsh : ss ++ s :: rest = (ss ++ [s]) ++ rest := by simp
    rw [hsh, evalLoop_append, h1]
  constructor
  · rw [eval_eq_loop (ss ++ s :: rest) st (by simp)]
    exact h2
  · exact evalLoop_single_error s st1 st2 l1 er hs

/-- Witness for `failure_preserves_bindings`: after `x = 1`, the failing
statement `zzz` reports the unknown name while `x` stays bound to `1`. -/
theorem failure_preserves_bindings_witness :
    SafeEval.eval ⟨[], []⟩
      ([.assign [.name "x"] (.constant (.int 1))] ++ [.exprS (.name "zzz")]) =
      (⟨[("x", .vInt 1)], []⟩,
        .error (.valueError ("Unknown variable or constant: " ++ "zzz"))) ∧
    (⟨[("x", .vInt 1)], []⟩ : EvState).vars = (⟨[("x", .vInt 1)], []⟩ : EvState).vars := by
  exact failure_preserves_bindings ⟨[], []⟩ ⟨[("x", .vInt 1)], []⟩
    ⟨[("x", .vInt 1)], []⟩ [.assign [.name "x"] (.constant (.int 1))] []
    (.exprS (.name "zzz")) (some (.vInt 1))
    (.valueError ("Unknown variable or constant: " ++ "zzz"))
    (by simp [evalLoop, evalExpr, envSet])
    (by simp [evalLoop, evalExpr, envLookup, ALLOWED_CONSTS])

/-- C9 (amended): evaluation's only side effect is on the evaluator's own
`self.vars` dict, which `__init__` seeds as a fresh copy (`dict(variables)`)
of the caller-supplied mapping: after any `eval` call, every pre-existing
store cell — in particular the caller's mapping — is unchanged, the fresh
cell holds the caller's contents at construction, and the call rewrites only
the evaluator's own cell, to the `vars` the evaluator computed. -/
theorem eval_mutates_only_own_vars :
    ∀ (store : Store) (varsArg : Option Nat) (body : List Stmt) (j a : Nat),
    j < store.length →
    ((SafeEval.evalStore (SafeEval.initStore store varsArg).1
        (SafeEval.initStore store varsArg).2 body).1.getD j [] = store.getD j []) ∧
    ((SafeEval.initStore store (some a)).1.getD (SafeEval.initStore store (some a)).2 []
       = store.getD a []) ∧
    ((SafeEval.evalStore (SafeEval.initStore store varsArg).1
        (SafeEval.initStore store varsArg).2 body).1 =
      store ++ [((SafeEval.eval
        ⟨(SafeEval.initStore store varsArg).1.getD (SafeEval.initStore store varsArg).2 [], []⟩
        body).1).vars]) := by
  intro store varsArg body j a hj
  have hinit : ∃ c, SafeEval.initStore store varsArg = (store ++ [c], store.length) := by
    cases varsArg <;> exact ⟨_, rfl⟩
  obtain ⟨c, hc⟩ := hinit
  have hcell : (store ++ [c]).getD store.length [] = c := by
    simp [List.getD, List.getElem?_append_right]
  refine ⟨?_, ?_, ?_⟩
  · rw [hc]
    simp only [SafeEval.evalStore]
    rcases hev : SafeEval.eval ⟨(store ++ [c]).getD store.length [], []⟩ body with ⟨stf, r⟩
    simp only [store_set_append]
    rw [List.getD_append _ _ _ _ hj]
  · simp [SafeEval.initStore]
  · rw [hc]
    simp only [SafeEval.evalStore]
    rcases hev : SafeEval.eval ⟨(store ++ [c]).getD store.length [], []⟩ body with ⟨stf, r⟩
    simp [store_set_append, hev]

/-- C9 counterexample: the claim that the CALLER's mapping reflects the new
binding is false — `SafeEval(callerDict)` copies the dict, so after
`eval("x = 5")` the caller's cell still has no binding for `x` (and is
unchanged), while the evaluator's own cell has it. -/
theorem caller_mapping_not_mutated_cex :
    (SafeEval.evalStore (SafeEval.initStore [[("y", .vInt 1)]] (some 0)).1
        (SafeEval.initStore [[("y", .vInt 1)]] (some 0)).2
        [.assign [.name "x"] (.constant (.int 5))]).1.getD 0 [] = [("y", .vInt 1)] ∧
    envLookup ((SafeEval.evalStore (SafeEval.initStore [[("y", .vInt 1)]] (some 0)).1
        (SafeEval.initStore [[("y", .vInt 1)]] (some 0)).2
        [.assign [.name "x"] (.constant (.int 5))]).1.getD 0 []) "x" = none ∧
    envLookup ((SafeEval.evalStore (SafeEval.initStore [[("y", .vInt 1)]] (some 0)).1
        (SafeEval.initStore [[("y", .vInt 1)]] (some 0)).2
        [.assign [.name "x"] (.constant (.int 5))]).1.getD 1 []) "x" = some (.vInt 5) := by
  refine ⟨?_, ?_, ?_⟩ <;>
    simp [SafeEval.initStore, SafeEval.evalStore, SafeEval.eval, evalLoop, evalExpr,
      envSet, envLookup, List.getD]

/-- Witness for `eval_mutates_only_own_vars` at a concrete store, body and
caller index. -/
theorem eval_mutates_only_own_vars_witness :
    (SafeEval.evalStore (SafeEval.initStore [[("y", .vInt 1)]] (some 0)).1
        (SafeEval.initStore [[("y", .vInt 1)]] (some 0)).2
        [.assign [.name "x"] (.constant (.int 5))]).1.getD 0 [] =
      ([[("y", .vInt 1)]] : Store).getD 0 [] := by
  exact (eval_mutates_only_own_vars [[("y", .vInt 1)]] (some 0)
    [.assign [.name "x"] (.constant (.int 5))] 0 0 (by decide)).1

end SafeCalc
